import Mathlib

/-!
Shallow embedding of the NavFn grid planner (`src/navfn/src/navfn.cpp`).

Modelling conventions:
* flat arrays indexed by the linear cell index become total functions from `ℤ`
  (the C code indexes with `int` expressions such as `n - nx` that may be
  negative at the boundary checks of the push macros);
* `float` values become exact rationals `ℚ`; the decimal literals of the
  source (`0.707106781`, `-0.2301`, `0.5307`, `0.7040`) are exact rationals;
* the A* heuristic `hypot(x - start[0], y - start[1]) * COST_NEUTRAL` and the
  norm `hypot(dx, dy)` are square roots, irrational in general, so they enter
  the embedding as function parameters; theorems quantify over them (with the
  defining bound `|a| ≤ hypot a b` where needed), hence cover the actual value;
* the priority buffers `pb1/pb2/pb3` with counts `curPe/nextPe/overPe` become
  lists (`count` = `List.length`); the pointer swap of buffer roles becomes a
  swap of the list fields, which is faithful because a swapped-out buffer is
  always paired with a zeroed count.
-/

set_option linter.unusedVariables false

namespace NavFnModel

/-- Modelled from the spec: internal lethal-obstacle cost `COST_OBS = 254`.
The constant lives in the header `navfn/navfn.h`, which is not under `src/`;
the spec (§3) fixes its value. -/
def COST_OBS : ℕ := 254

/-- Modelled from the spec: external inscribed-obstacle threshold
`COST_OBS_ROS = 253` (header constant, value fixed by spec §3). -/
def COST_OBS_ROS : ℕ := 253

/-- Modelled from the spec: external "unknown" marker, 255. The source calls it
`COST_UNKNOWN_ROS`; the spec calls it `COST_UNKNOWN_EXT`. -/
def COST_UNKNOWN_ROS : ℕ := 255

/-- Modelled from the spec: nominal free-space step cost `COST_NEUTRAL = 50`
(header constant, value fixed by spec §3). -/
def COST_NEUTRAL : ℕ := 50

/-- Modelled from the spec: sentinel potential `POT_HIGH = 1.0e10`
(header constant, value fixed by spec §3). -/
def POT_HIGH : ℚ := 10000000000

/-- Modelled from the spec: capacity of each priority buffer,
`PRIORITYBUFSIZE` = 10000 (header constant, typical value per spec §3). -/
def PRIORITYBUFSIZE : ℕ := 10000

/-- The literal `0.707106781` of `#define INVSQRT2 0.707106781` in the source. -/
def INVSQRT2 : ℚ := 707106781 / 1000000000

/-- State of one `NavFn` planner instance: the members of class `NavFn` that
the propagation and path code reads and writes.  `priInc` is set to
`2*COST_NEUTRAL` and `pathStep` to `0.5` by the constructor; `curT` is reset by
`setupNavFn`.  The member `ns` is maintained equal to `nx*ny` by `setNavArr`,
so it is a derived field here. -/
structure NavState where
  nx : ℤ
  ny : ℤ
  cost : ℤ → ℕ
  pot : ℤ → ℚ
  pending : ℤ → Bool
  curP : List ℤ
  nextP : List ℤ
  overP : List ℤ
  curT : ℚ
  priInc : ℚ
  goal : ℤ × ℤ
  start : ℤ × ℤ
  gradx : ℤ → ℚ
  grady : ℤ → ℚ
  pathStep : ℚ

/-- `ns = nx*ny`, as maintained by `NavFn::setNavArr`. -/
def NavState.ns (s : NavState) : ℤ := s.nx * s.ny

/-- The admission test shared by the macros `push_cur`, `push_next`,
`push_over`: `n>=0 && n<ns && !pending[n] && costarr[n]<COST_OBS &&
<count><PRIORITYBUFSIZE`. `len` is the count of the targeted buffer. -/
def pushOK (s : NavState) (n : ℤ) (len : ℕ) : Prop :=
  0 ≤ n ∧ n < s.ns ∧ s.pending n = false ∧ s.cost n < COST_OBS ∧
    len < PRIORITYBUFSIZE

instance (s : NavState) (n : ℤ) (len : ℕ) : Decidable (pushOK s n len) := by
  unfold pushOK; infer_instance

/-- Macro `push_cur(n)`: on success append `n` to the current buffer and mark
it pending; otherwise leave the state unchanged (silent drop). -/
def push_cur (s : NavState) (n : ℤ) : NavState :=
  if pushOK s n s.curP.length then
    { s with curP := s.curP ++ [n], pending := Function.update s.pending n true }
  else s

/-- Macro `push_next(n)`. -/
def push_next (s : NavState) (n : ℤ) : NavState :=
  if pushOK s n s.nextP.length then
    { s with nextP := s.nextP ++ [n], pending := Function.update s.pending n true }
  else s

/-- Macro `push_over(n)`. -/
def push_over (s : NavState) (n : ℤ) : NavState :=
  if pushOK s n s.overP.length then
    { s with overP := s.overP ++ [n], pending := Function.update s.pending n true }
  else s

/-- The planar-wave candidate of `NavFn::updateCell` / `NavFn::updateCellAstar`
(lines 495-539 resp. 601-638 of the source), for neighbor potentials
`l, r, u, d` and traversability factor `hf = (float)costarr[n]`:
take `tc = min(l,r)` and `ta = min(u,d)` via `if (l<r) tc=l; else tc=r;` etc.,
put `dc = tc - ta`, swap so that `ta` is the lowest (negating `dc`), and
return `ta + hf` if `dc >= hf`, else the quadratic interpolation
`ta + hf*(-0.2301*d*d + 0.5307*d + 0.7040)` with `d = dc/hf`. -/
def potCalc (l r u d hf : ℚ) : ℚ :=
  let tc := if l < r then l else r
  let ta := if u < d then u else d
  let dc0 := tc - ta
  let dc := if dc0 < 0 then -dc0 else dc0
  let ta1 := if dc0 < 0 then tc else ta
  if dc ≥ hf then ta1 + hf
  else
    let dd := dc / hf
    let v := -(2301/10000) * dd * dd + (5307/10000) * dd + 7040/10000
    ta1 + hf * v

/-- The same candidate written the way the spec words it (spec §4.3 and claim
C1): `ta` is the smaller and `tc` the larger of `min(u,d)` and `min(l,r)`,
`dc = tc - ta`, and the candidate is `ta + hf` when `dc ≥ hf`, otherwise
`ta + hf·v` with `v = -0.2301·d² + 0.5307·d + 0.7040`, `d = dc/hf`. -/
def potCalcSpec (l r u d hf : ℚ) : ℚ :=
  let ta := min (min u d) (min l r)
  let tc := max (min u d) (min l r)
  let dc := tc - ta
  if dc ≥ hf then ta + hf
  else
    let dd := dc / hf
    let v := -(2301/10000) * dd * dd + (5307/10000) * dd + 7040/10000
    ta + hf * v

/-- `NavFn::updateCell` (source lines 490-583): read the four neighbor
potentials, skip obstacle cells, compute the planar-wave candidate, and on
improvement commit it and push the improvable neighbors onto `nextP`
(when `pot < curT`) or `overP` (otherwise). -/
def updateCell (s : NavState) (n : ℤ) : NavState :=
  let l := s.pot (n - 1)
  let r := s.pot (n + 1)
  let u := s.pot (n - s.nx)
  let d := s.pot (n + s.nx)
  if s.cost n < COST_OBS then
    let pot := potCalc l r u d (s.cost n : ℚ)
    if pot < s.pot n then
      let le := INVSQRT2 * (s.cost (n - 1) : ℚ)
      let re := INVSQRT2 * (s.cost (n + 1) : ℚ)
      let ue := INVSQRT2 * (s.cost (n - s.nx) : ℚ)
      let de := INVSQRT2 * (s.cost (n + s.nx) : ℚ)
      let s1 : NavState := { s with pot := Function.update s.pot n pot }
      if pot < s.curT then
        let t1 := if l > pot + le then push_next s1 (n - 1) else s1
        let t2 := if r > pot + re then push_next t1 (n + 1) else t1
        let t3 := if u > pot + ue then push_next t2 (n - s.nx) else t2
        if d > pot + de then push_next t3 (n + s.nx) else t3
      else
        let t1 := if l > pot + le then push_over s1 (n - 1) else s1
        let t2 := if r > pot + re then push_over t1 (n + 1) else t1
        let t3 := if u > pot + ue then push_over t2 (n - s.nx) else t2
        if d > pot + de then push_over t3 (n + s.nx) else t3
    else s
  else s

/-- `NavFn::updateCellAstar` (source lines 597-675).  Identical to
`updateCell` up to the commit `potarr[n] = pot`; it then executes
`pot += dist` with `dist = hypot(n%nx - start[0], n/nx - start[1]) *
(float)COST_NEUTRAL`, so every dispatch comparison (`pot < curT` and the four
admission tests `l > pot+le`, ...) uses the inflated value.  The heuristic map
`n ↦ dist` is irrational in general (a float square root), so it is taken as
the parameter `hdist`; theorems quantify over it and hence cover the actual
value. -/
def updateCellAstar (hdist : ℤ → ℚ) (s : NavState) (n : ℤ) : NavState :=
  let l := s.pot (n - 1)
  let r := s.pot (n + 1)
  let u := s.pot (n - s.nx)
  let d := s.pot (n + s.nx)
  if s.cost n < COST_OBS then
    let pot := potCalc l r u d (s.cost n : ℚ)
    if pot < s.pot n then
      let le := INVSQRT2 * (s.cost (n - 1) : ℚ)
      let re := INVSQRT2 * (s.cost (n + 1) : ℚ)
      let ue := INVSQRT2 * (s.cost (n - s.nx) : ℚ)
      let de := INVSQRT2 * (s.cost (n + s.nx) : ℚ)
      let dist := hdist n
      let s1 : NavState := { s with pot := Function.update s.pot n pot }
      let g := pot + dist
      if g < s.curT then
        let t1 := if l > g + le then push_next s1 (n - 1) else s1
        let t2 := if r > g + re then push_next t1 (n + 1) else t1
        let t3 := if u > g + ue then push_next t2 (n - s.nx) else t2
        if d > g + de then push_next t3 (n + s.nx) else t3
      else
        let t1 := if l > g + le then push_over s1 (n - 1) else s1
        let t2 := if r > g + re then push_over t1 (n + 1) else t1
        let t3 := if u > g + ue then push_over t2 (n - s.nx) else t2
        if d > g + de then push_over t3 (n + s.nx) else t3
    else s
  else s

/-- Linear index of the goal cell, `int k = goal[0] + goal[1]*nx;`
(`NavFn::setupNavFn`, line 448). -/
def goalIdx (s : NavState) : ℤ := s.goal.1 + s.goal.2 * s.nx

/-- Linear index of the start cell, `int startCell = start[1]*nx + start[0];`
(`NavFn::propNavFnDijkstra`, line 701). -/
def startCellIdx (s : NavState) : ℤ := s.start.2 * s.nx + s.start.1

/-- `NavFn::initCost` (lines 469-477): seed cell `k` with potential `v` and
push its four 4-neighbors onto the current buffer. -/
def initCost (s : NavState) (k : ℤ) (v : ℚ) : NavState :=
  let s1 : NavState := { s with pot := Function.update s.pot k v }
  push_cur (push_cur (push_cur (push_cur s1 (k + 1)) (k - 1)) (k - s.nx)) (k + s.nx)

/-- The set of linear indices written `COST_OBS` by the four border loops of
`NavFn::setupNavFn` (lines 422-434): row 0 is `[0, nx)`, row `ny-1` is
`[(ny-1)*nx, ny*nx)`, column 0 is the indices `i*nx`, column `nx-1` the
indices `i*nx + nx-1`, for `i` in `[0, ny)`.  For `nx > 0` the last two are
exactly the in-range indices with residue `0` resp. `nx-1` modulo `nx`. -/
def borderCell (s : NavState) (i : ℤ) : Prop :=
  (0 ≤ i ∧ i < s.ns) ∧
    (i < s.nx ∨ (s.ny - 1) * s.nx ≤ i ∨ i % s.nx = 0 ∨ i % s.nx = s.nx - 1)

instance (s : NavState) (i : ℤ) : Decidable (borderCell s i) := by
  unfold borderCell; infer_instance

/-- `NavFn::setupNavFn` (lines 410-460): reset every potential to `POT_HIGH`
and every gradient to 0 (resetting the cost array to `COST_NEUTRAL` when
`keepit` is false), seal the outer border of the cost array with `COST_OBS`,
reset the priority buffers, the threshold `curT = COST_OBS` and the pending
map, then seed the goal cell via `initCost(k, 0)`.  The obstacle census
`nobs` only feeds a debug percentage and is omitted. -/
def setupNavFn (s : NavState) (keepit : Bool) : NavState :=
  let s1 : NavState :=
    { s with
      pot := fun _ => POT_HIGH
      cost := fun i =>
        if borderCell s i then COST_OBS
        else if keepit = false ∧ 0 ≤ i ∧ i < s.ns then COST_NEUTRAL
        else s.cost i
      gradx := fun _ => 0
      grady := fun _ => 0
      curT := (COST_OBS : ℚ)
      curP := []
      nextP := []
      overP := []
      pending := fun _ => false }
  initCost s1 (goalIdx s1) 0

/-- One cell of the ROS branch of `NavFn::setCostmap` (lines 238-265): the
cell is first written `COST_OBS`, then overwritten with
`COST_NEUTRAL + COST_FACTOR*v` (clamped below `COST_OBS`) when
`v < COST_OBS_ROS`, or with `COST_OBS-1` when `v == COST_UNKNOWN_ROS` and
unknown cells are allowed.  `COST_FACTOR` is the header constant `0.8`; the
double product followed by the assignment to `int v` truncates, and for
`0 ≤ v ≤ 252` that truncation equals the exact floor `(4*v)/5`. -/
def setCostmapCellROS (allowUnknown : Bool) (v : ℕ) : ℕ :=
  if v < COST_OBS_ROS then
    let w := COST_NEUTRAL + 4 * v / 5
    if COST_OBS ≤ w then COST_OBS - 1 else w
  else if v = COST_UNKNOWN_ROS ∧ allowUnknown = true then COST_OBS - 1
  else COST_OBS

/-- `NavFn::setCostmap` with `isROS = true`: translate every in-range cell of
the external map through `setCostmapCellROS` (the row-major loops write each
internal cell from the matching external cell exactly once). -/
def setCostmap (s : NavState) (cmap : ℤ → ℕ) (allowUnknown : Bool) : NavState :=
  { s with
    cost := fun i =>
      if 0 ≤ i ∧ i < s.ns then setCostmapCellROS allowUnknown (cmap i)
      else s.cost i }

/-- The pre-normalization gradient components `(dx, dy)` computed by
`NavFn::gradCell` (lines 1071-1101), including the source's obstacle-branch
read of `potarr[nx+1]` (line 1085) where the symmetric code would read
`potarr[n+nx]`. -/
def gradCellDxDy (s : NavState) (n : ℤ) : ℚ × ℚ :=
  let cv := s.pot n
  if cv ≥ POT_HIGH then
    let dx :=
      if s.pot (n - 1) < POT_HIGH then -(COST_OBS : ℚ)
      else if s.pot (n + 1) < POT_HIGH then (COST_OBS : ℚ)
      else 0
    let dy :=
      if s.pot (n - s.nx) < POT_HIGH then -(COST_OBS : ℚ)
      else if s.pot (s.nx + 1) < POT_HIGH then (COST_OBS : ℚ)
      else 0
    (dx, dy)
  else
    let dx1 := if s.pot (n - 1) < POT_HIGH then s.pot (n - 1) - cv else 0
    let dx2 := if s.pot (n + 1) < POT_HIGH then cv - s.pot (n + 1) else 0
    let dy1 := if s.pot (n - s.nx) < POT_HIGH then s.pot (n - s.nx) - cv else 0
    let dy2 := if s.pot (n + s.nx) < POT_HIGH then cv - s.pot (n + s.nx) else 0
    (dx1 + dx2, dy1 + dy2)

/-- Modelled from the spec (§4.5 and design note §9): the symmetric obstacle
branch that claim C8 prescribes, reading `potarr[n+nx]` for the downward
neighbor; the free branch is identical to `gradCellDxDy`. -/
def gradCellSpecDxDy (s : NavState) (n : ℤ) : ℚ × ℚ :=
  let cv := s.pot n
  if cv ≥ POT_HIGH then
    let dx :=
      if s.pot (n - 1) < POT_HIGH then -(COST_OBS : ℚ)
      else if s.pot (n + 1) < POT_HIGH then (COST_OBS : ℚ)
      else 0
    let dy :=
      if s.pot (n - s.nx) < POT_HIGH then -(COST_OBS : ℚ)
      else if s.pot (n + s.nx) < POT_HIGH then (COST_OBS : ℚ)
      else 0
    (dx, dy)
  else
    let dx1 := if s.pot (n - 1) < POT_HIGH then s.pot (n - 1) - cv else 0
    let dx2 := if s.pot (n + 1) < POT_HIGH then cv - s.pot (n + 1) else 0
    let dy1 := if s.pot (n - s.nx) < POT_HIGH then s.pot (n - s.nx) - cv else 0
    let dy2 := if s.pot (n + s.nx) < POT_HIGH then cv - s.pot (n + s.nx) else 0
    (dx1 + dx2, dy1 + dy2)

/-- `NavFn::gradCell` (lines 1062-1114): early-out when the cell already holds
a gradient or lies on the top/bottom border; otherwise compute `(dx,dy)`,
normalize by `norm = hypot(dx,dy)` and store the unit gradient when the norm
is positive.  It returns the reciprocal `1/norm` in that case, the
(non-positive) norm otherwise, and `1` resp. `0` on the early-outs.  `hypot`
is a float square root, taken as the parameter `hyp`. -/
def gradCell (hyp : ℚ → ℚ → ℚ) (s : NavState) (n : ℤ) : NavState × ℚ :=
  if s.gradx n + s.grady n > 0 then (s, 1)
  else if n < s.nx ∨ n > s.ns - s.nx then (s, 0)
  else
    let p := gradCellDxDy s n
    let norm := hyp p.1 p.2
    if norm > 0 then
      ({ s with
          gradx := Function.update s.gradx n (1 / norm * p.1)
          grady := Function.update s.grady n (1 / norm * p.2) }, 1 / norm)
    else (s, norm)

/-- C `round()`: round half away from zero (used on the sub-cell offsets in
`NavFn::calcPath`, line 910). -/
def croundQ (q : ℚ) : ℤ := if 0 ≤ q then ⌊q + 1 / 2⌋ else -⌊-q + 1 / 2⌋

/-- The two sequential carry `if`s of `NavFn::calcPath` (lines 1038-1041) for
one component: `if (dx > 1.0) dx -= 1.0; if (dx < -1.0) dx += 1.0;`.  After
the first branch fires the result exceeds 0, so the second test is false and
the chained-`if` form below is exactly the sequential composition. -/
def carryQ (q : ℚ) : ℚ := if q > 1 then q - 1 else if q < -1 then q + 1 else q

/-- The `stc` adjustments of the same four carry `if`s: ±1 for the `dx`
carries, then ±`nx` for the `dy` carries. -/
def carryStc (nx stc : ℤ) (dx1 dy1 : ℚ) : ℤ :=
  let stc1 := if dx1 > 1 then stc + 1 else if dx1 < -1 then stc - 1 else stc
  if dy1 > 1 then stc1 + nx else if dy1 < -1 then stc1 - nx else stc1

/-- The 8-neighbor minimum scan of the grid-walking fallback of
`NavFn::calcPath` (lines 963-983), in source order; the running minimum
`minp` is declared `int` in the source, so every comparison is against the
truncation of the stored minimum (`⌊·⌋` here — equal to the C truncation for
the nonnegative potentials of reachable states).  Returns the selected cell
and the truncated minimum. -/
def fallbackMin (s : NavState) (stc : ℤ) : ℤ × ℤ :=
  let stcnx := stc + s.nx
  let stcpx := stc - s.nx
  let upd : ℤ × ℤ → ℤ → ℤ × ℤ := fun m st =>
    if s.pot st < (m.2 : ℚ) then (st, ⌊s.pot st⌋) else m
  upd (upd (upd (upd (upd (upd (upd (upd (stc, ⌊s.pot stc⌋)
    (stcpx - 1)) stcpx) (stcpx + 1)) (stc - 1)) (stc + 1)) (stcnx - 1)) stcnx)
    (stcnx + 1)

/-- Loop state of `NavFn::calcPath`: current integer cell `stc`, sub-cell
offset `(dx, dy)`, the path length `npath` and the path buffers. -/
structure PathState where
  stc : ℤ
  dx : ℚ
  dy : ℚ
  npath : ℕ
  pathx : List ℚ
  pathy : List ℚ

/-- Outcome of one iteration of the `calcPath` main loop: success (`return
++npath` after appending the goal), failure (`return 0`), or continue with the
updated planner and loop state. -/
inductive PathStep where
  | done (px py : List ℚ)
  | fail
  | next (s : NavState) (ps : PathState)

/-- One iteration of the main loop of `NavFn::calcPath` (lines 905-1047):
near-goal check on the rounded nearest cell, top/bottom bounds check, append
the current sub-cell point, oscillation detection, then either the
grid-walking fallback (8-neighbor scan in source order; the running minimum
`minp` is declared `int` in the source, so every comparison is against the
truncated stored minimum — `⌊·⌋` here, the potentials being nonnegative in
all reachable states) or the bilinear gradient-descent advance with the two
carry `if`s per component.  `hyp` stands for float `hypot`. -/
def calcPathIter (hyp : ℚ → ℚ → ℚ) (s : NavState) (ps : PathState) : PathStep :=
  let nearest := max 0 (min (s.ns - 1) (ps.stc + croundQ ps.dx + s.nx * croundQ ps.dy))
  if s.pot nearest < (COST_NEUTRAL : ℚ) then
    .done (ps.pathx ++ [(s.goal.1 : ℚ)]) (ps.pathy ++ [(s.goal.2 : ℚ)])
  else if ps.stc < s.nx ∨ ps.stc > s.ns - s.nx then .fail
  else
    let px := ps.pathx ++ [((ps.stc % s.nx : ℤ) : ℚ) + ps.dx]
    let py := ps.pathy ++ [((ps.stc / s.nx : ℤ) : ℚ) + ps.dy]
    let np := ps.npath + 1
    let osc : Bool :=
      decide (2 < np) && decide (px.getD (np - 1) 0 = px.getD (np - 3) 0) &&
        decide (py.getD (np - 1) 0 = py.getD (np - 3) 0)
    let stcnx := ps.stc + s.nx
    let stcpx := ps.stc - s.nx
    if POT_HIGH ≤ s.pot ps.stc ∨ POT_HIGH ≤ s.pot (ps.stc + 1) ∨
        POT_HIGH ≤ s.pot (ps.stc - 1) ∨ POT_HIGH ≤ s.pot stcnx ∨
        POT_HIGH ≤ s.pot (stcnx + 1) ∨ POT_HIGH ≤ s.pot (stcnx - 1) ∨
        POT_HIGH ≤ s.pot stcpx ∨ POT_HIGH ≤ s.pot (stcpx + 1) ∨
        POT_HIGH ≤ s.pot (stcpx - 1) ∨ osc = true then
      let mc := (fallbackMin s ps.stc).1
      if POT_HIGH ≤ s.pot mc then .fail
      else .next s ⟨mc, 0, 0, np, px, py⟩
    else
      let s1 := (gradCell hyp s ps.stc).1
      let s2 := (gradCell hyp s1 (ps.stc + 1)).1
      let s3 := (gradCell hyp s2 stcnx).1
      let s4 := (gradCell hyp s3 (stcnx + 1)).1
      let x1 := (1 - ps.dx) * s4.gradx ps.stc + ps.dx * s4.gradx (ps.stc + 1)
      let x2 := (1 - ps.dx) * s4.gradx stcnx + ps.dx * s4.gradx (stcnx + 1)
      let x := (1 - ps.dy) * x1 + ps.dy * x2
      let y1 := (1 - ps.dx) * s4.grady ps.stc + ps.dx * s4.grady (ps.stc + 1)
      let y2 := (1 - ps.dx) * s4.grady stcnx + ps.dx * s4.grady (stcnx + 1)
      let y := (1 - ps.dy) * y1 + ps.dy * y2
      if x = 0 ∧ y = 0 then .fail
      else
        let ss := s.pathStep / hyp x y
        let dx1 := ps.dx + x * ss
        let dy1 := ps.dy + y * ss
        .next s4 ⟨carryStc s.nx ps.stc dx1 dy1, carryQ dx1, carryQ dy1, np, px, py⟩

/-- Entry state of the `calcPath` loop: `stc = st[1]*nx + st[0]`,
`dx = dy = 0`, `npath = 0` (lines 896-902). -/
def initPathState (s : NavState) (st : ℤ × ℤ) : PathState :=
  ⟨st.2 * s.nx + st.1, 0, 0, 0, [], []⟩

/-- The `calcPath` loop state at the start of iteration `k`, starting from
`initPathState`: iterate `calcPathIter` while it continues. -/
def calcPathIterN (hyp : ℚ → ℚ → ℚ) (s : NavState) (st : ℤ × ℤ) : ℕ → PathStep
  | 0 => .next s (initPathState s st)
  | k + 1 =>
    match calcPathIterN hyp s st k with
    | .next s1 ps1 => calcPathIter hyp s1 ps1
    | r => r

/-- The `dx` offset carried by a loop outcome (0 for the exits). -/
def stepDx : PathStep → ℚ
  | .next _ ps => ps.dx
  | _ => 0

/-- The `dy` offset carried by a loop outcome (0 for the exits). -/
def stepDy : PathStep → ℚ
  | .next _ ps => ps.dy
  | _ => 0

/-- One iteration of the main loop of `NavFn::propNavFnDijkstra` (lines
704-759), minus the break tests: clear the pending flags of the cells in the
current buffer, run `updateCell` over the current buffer in order, swap
`curP` with `nextP`, and when the new current buffer is empty raise `curT` by
`priInc` and promote the overflow buffer.  (The display hook does not touch
the planner state and is omitted.) -/
def propCycle (s : NavState) : NavState :=
  let sa := s.curP.foldl
    (fun t k => { t with pending := Function.update t.pending k false }) s
  let sb := s.curP.foldl updateCell sa
  let sc : NavState := { sb with curP := sb.nextP, nextP := [] }
  if sc.curP.length = 0 then
    { sc with curT := sc.curT + sc.priInc, curP := sc.overP, overP := [] }
  else sc

/-- The `for (; cycle < cycles; cycle++)` loop of `NavFn::propNavFnDijkstra`,
by remaining fuel; returns the value of `cycle` at loop exit together with
the final state.  The loop breaks when both the current and next buffers are
empty, and (with `atSt`) when the start cell has left `POT_HIGH`. -/
def propRun (atSt : Bool) (stc : ℤ) : ℕ → NavState → ℕ × NavState
  | 0, s => (0, s)
  | fuel + 1, s =>
    if s.curP.length = 0 ∧ s.nextP.length = 0 then (0, s)
    else
      let s1 := propCycle s
      if atSt = true ∧ s1.pot stc < POT_HIGH then (0, s1)
      else
        let r := propRun atSt stc fuel s1
        (r.1 + 1, r.2)

/-- `NavFn::propNavFnDijkstra` (lines 693-767): run the loop and return
`cycle < cycles` (`true` exactly when the loop exited early). -/
def propNavFnDijkstra (s : NavState) (cycles : ℕ) (atSt : Bool) : Bool × NavState :=
  let r := propRun atSt (startCellIdx s) cycles s
  (decide (r.1 < cycles), r.2)

/-- Convenience constructor for concrete planner states: buffers empty,
nothing pending, no gradients, `priInc = 2*COST_NEUTRAL` and `pathStep = 0.5`
as set by the `NavFn` constructor. -/
def mkState (nx ny : ℤ) (cost : ℤ → ℕ) (pot : ℤ → ℚ) (goal start : ℤ × ℤ)
    (curT : ℚ) : NavState :=
  { nx := nx, ny := ny, cost := cost, pot := pot, pending := fun _ => false
    curP := [], nextP := [], overP := [], curT := curT
    priInc := 2 * (COST_NEUTRAL : ℚ), goal := goal, start := start
    gradx := fun _ => 0, grady := fun _ => 0, pathStep := 1 / 2 }

/-- Concrete state for the C1 witness and the C7 counterexample: a 6×6 grid
with uniform free cost 50, start at (1,0); cell 28 = (4,4) has neighbor
potentials l = 200 (cell 27), u = 0 (cell 22), r = d = `POT_HIGH`.  Cell 28
lies at Euclidean distance `hypot(3,4) = 5` from the start, so its A*
heuristic is exactly `5 * COST_NEUTRAL = 250` (exact also as a float). -/
def c7s : NavState :=
  mkState 6 6 (fun _ => 50)
    (fun i => if i = 27 then 200 else if i = 22 then 0 else POT_HIGH)
    (0, 0) (1, 0) 1000000

/-- Concrete state for the C3 counterexample: 3×3 grid, goal (0,0) — a border
cell, hence an obstacle cell after `setupNavFn` seals the border. -/
def c3s : NavState :=
  mkState 3 3 (fun _ => 50) (fun _ => POT_HIGH) (0, 0) (1, 1) 254

/-- Concrete state for the C5 witness: 3×3 grid, goal (1,1) (the interior
cell, index 4). -/
def c5s : NavState :=
  mkState 3 3 (fun _ => 50) (fun _ => POT_HIGH) (1, 1) (1, 1) 254

/-- Concrete state for the C6 witness: 3×3 grid of free cells. -/
def c6s : NavState :=
  mkState 3 3 (fun _ => 50) (fun _ => POT_HIGH) (0, 0) (0, 0) 254

/-- Concrete state for the C8 failing input: 5×5 grid; the center cell 12 and
all its neighbors sit at `POT_HIGH` except the cell below it (17), which has
been reached (`pot = 3`).  Cell `nx+1 = 6`, the cell the source actually
reads, is at `POT_HIGH`. -/
def c8s : NavState :=
  mkState 5 5 (fun _ => 50) (fun i => if i = 17 then 3 else POT_HIGH)
    (0, 0) (0, 0) 254

/-- Concrete state for the C10 witness: empty priority buffers and an
all-`POT_HIGH` potential field (start unreachable). -/
def c10s : NavState :=
  mkState 3 3 (fun _ => 50) (fun _ => POT_HIGH) (0, 0) (1, 1) 254

/-- Concrete state for the C9 witness. -/
def c9s : NavState :=
  mkState 5 5 (fun _ => 50) (fun _ => POT_HIGH) (0, 0) (2, 2) 254

/-! Helper lemmas: the push operations touch only their buffer and the
pending map. -/

theorem push_cur_pot (t : NavState) (m : ℤ) : (push_cur t m).pot = t.pot := by
  unfold push_cur; split <;> rfl

theorem push_next_pot (t : NavState) (m : ℤ) : (push_next t m).pot = t.pot := by
  unfold push_next; split <;> rfl

theorem push_over_pot (t : NavState) (m : ℤ) : (push_over t m).pot = t.pot := by
  unfold push_over; split <;> rfl

theorem push_cur_cost (t : NavState) (m : ℤ) : (push_cur t m).cost = t.cost := by
  unfold push_cur; split <;> rfl

theorem ite_push_next_pot (c : Prop) [Decidable c] (t : NavState) (m : ℤ) :
    (if c then push_next t m else t).pot = t.pot := by
  split
  · exact push_next_pot t m
  · rfl

theorem ite_push_over_pot (c : Prop) [Decidable c] (t : NavState) (m : ℤ) :
    (if c then push_over t m else t).pot = t.pot := by
  split
  · exact push_over_pot t m
  · rfl

/-- The potential array written by `updateCell`: the planar-wave candidate is
committed at `n` exactly when the cell is not an obstacle and the candidate
strictly improves; the neighbor pushes never write potentials. -/
theorem updateCell_pot (s : NavState) (n : ℤ) :
    (updateCell s n).pot =
      if s.cost n < COST_OBS then
        if potCalc (s.pot (n - 1)) (s.pot (n + 1)) (s.pot (n - s.nx))
            (s.pot (n + s.nx)) (s.cost n : ℚ) < s.pot n then
          Function.update s.pot n
            (potCalc (s.pot (n - 1)) (s.pot (n + 1)) (s.pot (n - s.nx))
              (s.pot (n + s.nx)) (s.cost n : ℚ))
        else s.pot
      else s.pot := by
  by_cases h1 : s.cost n < COST_OBS
  · by_cases h2 : potCalc (s.pot (n - 1)) (s.pot (n + 1)) (s.pot (n - s.nx))
        (s.pot (n + s.nx)) (s.cost n : ℚ) < s.pot n
    · simp only [updateCell, if_pos h1, if_pos h2, apply_ite NavState.pot,
        push_next_pot, push_over_pot, ite_push_next_pot, ite_push_over_pot, ite_self]
    · simp only [updateCell, if_pos h1, if_neg h2]
  · simp only [updateCell, if_neg h1]

/-- Same as `updateCell_pot` for the A* variant: the heuristic is added only
after the commit, so the stored potential is identical. -/
theorem updateCellAstar_pot (hdist : ℤ → ℚ) (s : NavState) (n : ℤ) :
    (updateCellAstar hdist s n).pot =
      if s.cost n < COST_OBS then
        if potCalc (s.pot (n - 1)) (s.pot (n + 1)) (s.pot (n - s.nx))
            (s.pot (n + s.nx)) (s.cost n : ℚ) < s.pot n then
          Function.update s.pot n
            (potCalc (s.pot (n - 1)) (s.pot (n + 1)) (s.pot (n - s.nx))
              (s.pot (n + s.nx)) (s.cost n : ℚ))
        else s.pot
      else s.pot := by
  by_cases h1 : s.cost n < COST_OBS
  · by_cases h2 : potCalc (s.pot (n - 1)) (s.pot (n + 1)) (s.pot (n - s.nx))
        (s.pot (n + s.nx)) (s.cost n : ℚ) < s.pot n
    · simp only [updateCellAstar, if_pos h1, if_pos h2, apply_ite NavState.pot,
        push_next_pot, push_over_pot, ite_push_next_pot, ite_push_over_pot, ite_self]
    · simp only [updateCellAstar, if_pos h1, if_neg h2]
  · simp only [updateCellAstar, if_neg h1]

/-- The source's two-way selectors are the binary minimum. -/
theorem if_lt_eq_min (a b : ℚ) : (if a < b then a else b) = min a b := by
  rcases le_or_lt b a with h | h
  · rw [if_neg (not_lt.mpr h), min_eq_right h]
  · rw [if_pos h, min_eq_left h.le]

/-- The candidate computation of the source equals the spec's min/max form. -/
theorem potCalc_eq_spec (l r u d hf : ℚ) :
    potCalc l r u d hf = potCalcSpec l r u d hf := by
  simp only [potCalc, potCalcSpec, if_lt_eq_min]
  rcases lt_or_ge (min l r - min u d) 0 with h | h
  · have h1 : min l r ≤ min u d := by linarith
    simp only [if_pos h, neg_sub, min_eq_right h1, max_eq_left h1]
  · have h1 : min u d ≤ min l r := by linarith
    simp only [if_neg (not_lt.mpr h), min_eq_left h1, max_eq_right h1]

/-- C1: for every interior cell `n` with `cost[n] < COST_OBS`, the candidate
potential computed by `updateCell` from the four neighbor potentials equals
the spec form: with `ta` the smaller and `tc` the larger of `min(u,d)` and
`min(l,r)`, `hf = cost[n]` and `dc = tc - ta`, the candidate is `ta + hf`
when `dc ≥ hf` and `ta + hf·(-0.2301·d² + 0.5307·d + 0.7040)`, `d = dc/hf`,
otherwise; moreover `updateCell` stores at `n` exactly that candidate when it
improves on `pot[n]` and leaves `pot[n]` unchanged otherwise. -/
theorem navfn_c1 (s : NavState) (n : ℤ) (h : s.cost n < COST_OBS) :
    potCalc (s.pot (n - 1)) (s.pot (n + 1)) (s.pot (n - s.nx))
        (s.pot (n + s.nx)) (s.cost n : ℚ) =
      potCalcSpec (s.pot (n - 1)) (s.pot (n + 1)) (s.pot (n - s.nx))
        (s.pot (n + s.nx)) (s.cost n : ℚ) ∧
    (updateCell s n).pot n =
      if potCalcSpec (s.pot (n - 1)) (s.pot (n + 1)) (s.pot (n - s.nx))
          (s.pot (n + s.nx)) (s.cost n : ℚ) < s.pot n then
        potCalcSpec (s.pot (n - 1)) (s.pot (n + 1)) (s.pot (n - s.nx))
          (s.pot (n + s.nx)) (s.cost n : ℚ)
      else s.pot n := by
  refine ⟨potCalc_eq_spec _ _ _ _ _, ?_⟩
  rw [updateCell_pot, if_pos h, potCalc_eq_spec]
  split_ifs with h2
  · rw [Function.update_same]
  · rfl

/-- Witness for C1 at the concrete state `c7s`, cell 28. -/
theorem navfn_c1_witness :
    c7s.cost 28 < COST_OBS ∧
      (potCalc (c7s.pot (28 - 1)) (c7s.pot (28 + 1)) (c7s.pot (28 - c7s.nx))
          (c7s.pot (28 + c7s.nx)) (c7s.cost 28 : ℚ) =
        potCalcSpec (c7s.pot (28 - 1)) (c7s.pot (28 + 1)) (c7s.pot (28 - c7s.nx))
          (c7s.pot (28 + c7s.nx)) (c7s.cost 28 : ℚ) ∧
      (updateCell c7s 28).pot 28 =
        if potCalcSpec (c7s.pot (28 - 1)) (c7s.pot (28 + 1)) (c7s.pot (28 - c7s.nx))
            (c7s.pot (28 + c7s.nx)) (c7s.cost 28 : ℚ) < c7s.pot 28 then
          potCalcSpec (c7s.pot (28 - 1)) (c7s.pot (28 + 1)) (c7s.pot (28 - c7s.nx))
            (c7s.pot (28 + c7s.nx)) (c7s.cost 28 : ℚ)
        else c7s.pot 28) :=
  ⟨by decide, navfn_c1 c7s 28 (by decide)⟩

/-- C2: one call to `updateCell` or `updateCellAstar` never increases any
potential — the candidate is committed only when strictly below the current
value — so successive updates yield a non-increasing sequence at every cell. -/
theorem navfn_c2 (hdist : ℤ → ℚ) (s : NavState) (n k : ℤ) :
    (updateCell s n).pot k ≤ s.pot k ∧
      (updateCellAstar hdist s n).pot k ≤ s.pot k := by
  constructor
  · rw [updateCell_pot]
    split_ifs with h1 h2
    · rcases eq_or_ne k n with rfl | hk
      · rw [Function.update_same]; exact h2.le
      · rw [Function.update_noteq hk]
    · exact le_refl _
    · exact le_refl _
  · rw [updateCellAstar_pot]
    split_ifs with h1 h2
    · rcases eq_or_ne k n with rfl | hk
      · rw [Function.update_same]; exact h2.le
      · rw [Function.update_noteq hk]
    · exact le_refl _
    · exact le_refl _

/-- C4: cellwise behavior of `setCostmap` in ROS mode — scale-and-clamp below
`COST_OBS_ROS`, `COST_OBS-1` for allowed unknown cells, `COST_OBS` otherwise. -/
theorem navfn_c4 (allow : Bool) (v : ℕ) :
    (v < COST_OBS_ROS →
      setCostmapCellROS allow v = min (COST_OBS - 1) (COST_NEUTRAL + 4 * v / 5)) ∧
    (v = COST_UNKNOWN_ROS → allow = true →
      setCostmapCellROS allow v = COST_OBS - 1) ∧
    (¬v < COST_OBS_ROS → ¬(v = COST_UNKNOWN_ROS ∧ allow = true) →
      setCostmapCellROS allow v = COST_OBS) := by
  refine ⟨?_, ?_, ?_⟩
  · intro h
    simp only [setCostmapCellROS, if_pos h, COST_OBS, COST_NEUTRAL]
    split_ifs with h2 <;> omega
  · intro h1 h2
    have hne : ¬v < COST_OBS_ROS := by
      subst h1; simp [COST_UNKNOWN_ROS, COST_OBS_ROS]
    simp only [setCostmapCellROS, if_neg hne, if_pos (And.intro h1 h2)]
  · intro h1 h2
    simp only [setCostmapCellROS, if_neg h1, if_neg h2]

/-- Witness for C4: external value 100 scales to `50 + 80 = 130`. -/
theorem navfn_c4_witness :
    setCostmapCellROS true 100 = min (COST_OBS - 1) (COST_NEUTRAL + 4 * 100 / 5) :=
  (navfn_c4 true 100).1 (by decide)

/-- C6: each push admits its cell exactly under the four admission conditions
and the capacity bound, appending the index and marking it pending; when any
condition fails the push is a silent no-op. -/
theorem navfn_c6 (s : NavState) (n : ℤ) :
    (pushOK s n s.curP.length →
      push_cur s n =
        { s with curP := s.curP ++ [n],
                 pending := Function.update s.pending n true }) ∧
    (¬pushOK s n s.curP.length → push_cur s n = s) ∧
    (pushOK s n s.nextP.length →
      push_next s n =
        { s with nextP := s.nextP ++ [n],
                 pending := Function.update s.pending n true }) ∧
    (¬pushOK s n s.nextP.length → push_next s n = s) ∧
    (pushOK s n s.overP.length →
      push_over s n =
        { s with overP := s.overP ++ [n],
                 pending := Function.update s.pending n true }) ∧
    (¬pushOK s n s.overP.length → push_over s n = s) := by
  refine ⟨?_, ?_, ?_, ?_, ?_, ?_⟩
  · intro h; simp only [push_cur, if_pos h]
  · intro h; simp only [push_cur, if_neg h]
  · intro h; simp only [push_next, if_pos h]
  · intro h; simp only [push_next, if_neg h]
  · intro h; simp only [push_over, if_pos h]
  · intro h; simp only [push_over, if_neg h]

/-- Witness for C6: pushing the admissible cell 4 of `c6s` onto `nextP`. -/
theorem navfn_c6_witness :
    pushOK c6s 4 c6s.nextP.length ∧
      push_next c6s 4 =
        { c6s with nextP := c6s.nextP ++ [4],
                   pending := Function.update c6s.pending 4 true } :=
  ⟨by decide, ((navfn_c6 c6s 4).2.2.1) (by decide)⟩

/-- Concrete state for the C3 witness: 3×3 grid with an obstacle at the
interior cell 4, goal (0,0). -/
def c3w : NavState :=
  mkState 3 3 (fun i => if i = 4 then 254 else 50) (fun _ => POT_HIGH)
    (0, 0) (1, 1) 254

/-- The potential array after `setupNavFn`: `POT_HIGH` everywhere except 0 at
the goal index (the seeding pushes never write potentials). -/
theorem setup_pot (s : NavState) (keepit : Bool) :
    (setupNavFn s keepit).pot = Function.update (fun _ => POT_HIGH) (goalIdx s) 0 := by
  simp only [setupNavFn, initCost, push_cur_pot]
  rfl

/-- The cost array after `setupNavFn`: border cells are sealed at `COST_OBS`,
the rest is kept (or reset to `COST_NEUTRAL` when `keepit` is false). -/
theorem setup_cost (s : NavState) (keepit : Bool) :
    (setupNavFn s keepit).cost = fun i =>
      if borderCell s i then COST_OBS
      else if keepit = false ∧ 0 ≤ i ∧ i < s.ns then COST_NEUTRAL
      else s.cost i := by
  simp only [setupNavFn, initCost, push_cur_cost]

/-- C3 (amended): every non-goal cell holds `POT_HIGH` after `setupNavFn`,
and at every cell whose cost is at least `COST_OBS` neither `updateCell` nor
`updateCellAstar` ever writes the potential; the goal cell itself is exempt
from the setup part because `initCost` seeds it with 0 unconditionally. -/
theorem navfn_c3 (hdist : ℤ → ℚ) (s : NavState) (keepit : Bool) (n k : ℤ) :
    (COST_OBS ≤ (setupNavFn s keepit).cost k → k ≠ goalIdx s →
      (setupNavFn s keepit).pot k = POT_HIGH) ∧
    (COST_OBS ≤ s.cost k → (updateCell s n).pot k = s.pot k) ∧
    (COST_OBS ≤ s.cost k → (updateCellAstar hdist s n).pot k = s.pot k) := by
  refine ⟨?_, ?_, ?_⟩
  · intro _ hk
    rw [setup_pot, Function.update_noteq hk]
  · intro hc
    rw [updateCell_pot]
    split_ifs with h1 h2
    · rcases eq_or_ne k n with rfl | hk
      · exact absurd h1 (by omega)
      · rw [Function.update_noteq hk]
    · rfl
    · rfl
  · intro hc
    rw [updateCellAstar_pot]
    split_ifs with h1 h2
    · rcases eq_or_ne k n with rfl | hk
      · exact absurd h1 (by omega)
      · rw [Function.update_noteq hk]
    · rfl
    · rfl

/-- Witness for C3 (amended) at the obstacle cell 4 of `c3w`. -/
theorem navfn_c3_witness :
    (setupNavFn c3w true).pot 4 = POT_HIGH ∧
      (updateCell c3w 4).pot 4 = c3w.pot 4 ∧
      (updateCellAstar (fun _ => 0) c3w 4).pot 4 = c3w.pot 4 :=
  ⟨(navfn_c3 (fun _ => 0) c3w true 4 4).1 (by decide) (by decide),
   (navfn_c3 (fun _ => 0) c3w true 4 4).2.1 (by decide),
   (navfn_c3 (fun _ => 0) c3w true 4 4).2.2 (by decide)⟩

/-- Counterexample to C3 as stated: in `c3s` the goal (0,0) is a border cell,
so after `setupNavFn` it is an obstacle cell (`cost = COST_OBS`), yet
`initCost` has seeded its potential with 0, not `POT_HIGH`. -/
theorem navfn_c3_counterexample :
    COST_OBS ≤ (setupNavFn c3s true).cost (goalIdx c3s) ∧
      (setupNavFn c3s true).pot (goalIdx c3s) = 0 ∧
      ¬(setupNavFn c3s true).pot (goalIdx c3s) = POT_HIGH := by decide

/-- C5: after any `setupNavFn`, every border cell costs `COST_OBS`, and the
potential field is `POT_HIGH` everywhere except 0 at the goal cell. -/
theorem navfn_c5 (s : NavState) (keepit : Bool) (x y : ℤ)
    (hx0 : 0 ≤ x) (hx1 : x < s.nx) (hy0 : 0 ≤ y) (hy1 : y < s.ny)
    (hb : x = 0 ∨ x = s.nx - 1 ∨ y = 0 ∨ y = s.ny - 1) :
    (setupNavFn s keepit).cost (y * s.nx + x) = COST_OBS ∧
      (∀ k, k ≠ goalIdx s → (setupNavFn s keepit).pot k = POT_HIGH) ∧
      (setupNavFn s keepit).pot (goalIdx s) = 0 := by
  have hnx : 0 < s.nx := lt_of_le_of_lt hx0 hx1
  refine ⟨?_, ?_, ?_⟩
  · have hc := congrFun (setup_cost s keepit) (y * s.nx + x)
    rw [hc]
    have hin0 : 0 ≤ y * s.nx + x := by
      have := mul_nonneg hy0 hnx.le; linarith
    have hin1 : y * s.nx + x < s.ns := by
      have h1 : y * s.nx ≤ (s.ny - 1) * s.nx :=
        mul_le_mul_of_nonneg_right (by linarith) hnx.le
      have h2 : (s.ny - 1) * s.nx + x < s.nx * s.ny := by nlinarith
      show y * s.nx + x < s.nx * s.ny
      linarith
    have hd : (y * s.nx + x) < s.nx ∨ (s.ny - 1) * s.nx ≤ y * s.nx + x ∨
        (y * s.nx + x) % s.nx = 0 ∨ (y * s.nx + x) % s.nx = s.nx - 1 := by
      rcases hb with rfl | rfl | rfl | rfl
      · right; right; left
        have h3 : y * s.nx + 0 = s.nx * y := by ring
        rw [h3, Int.mul_emod_right]
      · right; right; right
        have h3 : y * s.nx + (s.nx - 1) = (s.nx - 1) + s.nx * y := by ring
        rw [h3, Int.add_mul_emod_self_left,
          Int.emod_eq_of_lt (by linarith) (by linarith)]
      · left
        simpa using hx1
      · right; left
        linarith
    rw [if_pos ⟨⟨hin0, hin1⟩, hd⟩]
  · intro k hk
    rw [setup_pot, Function.update_noteq hk]
  · rw [setup_pot, Function.update_same]

/-- Witness for C5: the border cell (0,1) of the 3×3 state `c5s`, whose goal
is the interior cell 4. -/
theorem navfn_c5_witness :
    (setupNavFn c5s true).cost (1 * c5s.nx + 0) = COST_OBS ∧
      (setupNavFn c5s true).pot (goalIdx c5s) = 0 :=
  ⟨(navfn_c5 c5s true 0 1 (by decide) (by decide) (by decide) (by decide)
      (Or.inl rfl)).1,
   (navfn_c5 c5s true 0 1 (by decide) (by decide) (by decide) (by decide)
      (Or.inl rfl)).2.2⟩

/-- C7 (amended): `updateCellAstar` commits exactly the potential that
`updateCell` commits (the true g-cost, no heuristic stored), and it is the
instance of the same dispatch code with the committed value inflated by the
heuristic — with heuristic 0 the two routines coincide, and the inflated
value enters both the threshold comparison against `curT` and the four
per-neighbor admission tests. -/
theorem navfn_c7 (hdist : ℤ → ℚ) (s : NavState) (n k : ℤ) :
    (updateCellAstar hdist s n).pot k = (updateCell s n).pot k ∧
      updateCell s n = updateCellAstar (fun _ => 0) s n := by
  constructor
  · rw [updateCell_pot, updateCellAstar_pot]
  · simp only [updateCell, updateCellAstar, add_zero]

/-- Counterexample to C7 as stated: at cell 28 of `c7s` (heuristic value
`hypot(3,4)·COST_NEUTRAL = 250` exactly), `updateCell` pushes neighbor 27,
but `updateCellAstar` pushes it onto *neither* buffer — the inflated value is
also used in the admission test `l > pot+le` (200 > 50+35.36 but not
> 300+35.36) — so the two calls do not differ merely in the choice between
`nextP` and `overP`. -/
theorem navfn_c7_counterexample :
    (updateCell c7s 28).pending 27 = true ∧
      (updateCellAstar (fun _ => 250) c7s 28).pending 27 = false := by
  constructor
  · norm_num [updateCell, potCalc, c7s, mkState, POT_HIGH, COST_OBS,
      COST_NEUTRAL, INVSQRT2, push_next, pushOK, NavState.ns, PRIORITYBUFSIZE,
      Function.update]
  · norm_num [updateCellAstar, potCalc, c7s, mkState, POT_HIGH, COST_OBS,
      COST_NEUTRAL, INVSQRT2, push_next, pushOK, NavState.ns, PRIORITYBUFSIZE,
      Function.update]

/-- C8: at the failing input `c8s`, cell 12 — an obstacle-interior cell whose
only reachable 4-neighbor is the one below it (cell 17) — the source's
obstacle branch of `gradCell` reads `potarr[nx+1]` (cell 6) and therefore
leaves `dy = 0` (no direction found, `hypot(0,0) = 0`, nothing stored, return
0), whereas the symmetric form prescribed by the spec yields
`dy = +COST_OBS`. -/
theorem navfn_c8 :
    gradCellDxDy c8s 12 = (0, 0) ∧
      gradCellSpecDxDy c8s 12 = (0, (COST_OBS : ℚ)) ∧
      c8s.pot (12 + c8s.nx) < POT_HIGH ∧
      POT_HIGH ≤ c8s.pot 12 ∧
      (gradCell (fun a b => |a| + |b|) c8s 12).2 = 0 := by
  refine ⟨?_, ?_, ?_, ?_, ?_⟩ <;>
    norm_num [gradCellDxDy, gradCellSpecDxDy, gradCell, c8s, mkState,
      POT_HIGH, COST_OBS, NavState.ns, Prod.ext_iff]

/-- C10: `propNavFnDijkstra` returns `true` exactly when its loop exits with
`cycle < cycles`; in particular it returns `true` when the priority buffers
are already drained while the start cell still holds `POT_HIGH`, so `true`
does not mean the start was reached. -/
theorem navfn_c10 (s : NavState) (cycles : ℕ) (atSt : Bool) :
    ((propNavFnDijkstra s cycles atSt).1 = true ↔
      (propRun atSt (startCellIdx s) cycles s).1 < cycles) ∧
    (0 < cycles → s.curP = [] → s.nextP = [] →
      s.pot (startCellIdx s) = POT_HIGH →
      (propNavFnDijkstra s cycles atSt).1 = true) := by
  constructor
  · simp [propNavFnDijkstra]
  · intro hc h1 h2 hp
    rcases Nat.exists_eq_succ_of_ne_zero (by omega : cycles ≠ 0) with ⟨m, rfl⟩
    simp [propNavFnDijkstra, propRun, h1, h2]

/-- Witness for C10: `c10s` has empty buffers and an all-`POT_HIGH` field,
and `propNavFnDijkstra` with budget 3 returns `true`. -/
theorem navfn_c10_witness :
    (propNavFnDijkstra c10s 3 false).1 = true :=
  (navfn_c10 c10s 3 false).2 (by decide) rfl rfl (by decide)

/-! C9: the sub-cell offset invariant of `calcPath`. -/

theorem gradCell_pathStep (hyp : ℚ → ℚ → ℚ) (s : NavState) (n : ℤ) :
    ((gradCell hyp s n).1).pathStep = s.pathStep := by
  simp only [gradCell]; split_ifs <;> rfl

theorem carryQ_bound (q : ℚ) (h : |q| ≤ 2) : |carryQ q| ≤ 1 := by
  unfold carryQ
  rw [abs_le] at h
  split_ifs <;> rw [abs_le] <;> constructor <;> linarith

theorem hyp_pos (hyp : ℚ → ℚ → ℚ)
    (hH : ∀ a b, |a| ≤ hyp a b ∧ |b| ≤ hyp a b)
    (x y : ℚ) (h : ¬(x = 0 ∧ y = 0)) : 0 < hyp x y := by
  rcases not_and_or.mp h with hx | hy
  · exact lt_of_lt_of_le (abs_pos.mpr hx) (hH x y).1
  · exact lt_of_lt_of_le (abs_pos.mpr hy) (hH x y).2

/-- One gradient-descent advance plus the carry keeps a component in
`[-1, 1]`: the added step is at most `p ≤ 1` in magnitude since `|x| ≤ h`. -/
theorem advance_bound (p h x d : ℚ) (hp0 : 0 ≤ p) (hp1 : p ≤ 1)
    (hx : |x| ≤ h) (hpos : 0 < h) (hd : |d| ≤ 1) :
    |carryQ (d + x * (p / h))| ≤ 1 := by
  apply carryQ_bound
  have hq : 0 ≤ p / h := by positivity
  have hstep : |x * (p / h)| ≤ p :=
    calc |x * (p / h)| = |x| * (p / h) := by rw [abs_mul, abs_of_nonneg hq]
      _ ≤ h * (p / h) := mul_le_mul_of_nonneg_right hx hq
      _ = p := by field_simp
  calc |d + x * (p / h)| ≤ |d| + |x * (p / h)| := abs_add _ _
    _ ≤ 2 := by linarith

/-- Every continuing iteration of the `calcPath` loop keeps the sub-cell
offsets in `[-1, 1]`: the fallback resets them to 0, and the gradient branch
adds a step bounded by `pathStep` and carries overflowing components back. -/
theorem calcPathIter_bound (hyp : ℚ → ℚ → ℚ)
    (hH : ∀ a b, |a| ≤ hyp a b ∧ |b| ≤ hyp a b)
    (s : NavState) (ps : PathState)
    (hp0 : 0 ≤ s.pathStep) (hp1 : s.pathStep ≤ 1)
    (hdx : |ps.dx| ≤ 1) (hdy : |ps.dy| ≤ 1)
    (s' : NavState) (ps' : PathState)
    (h : calcPathIter hyp s ps = .next s' ps') :
    s'.pathStep = s.pathStep ∧ |ps'.dx| ≤ 1 ∧ |ps'.dy| ≤ 1 := by
  simp only [calcPathIter] at h
  split_ifs at h with h1 h2 h3 h4 h5
  all_goals injection h with e1 e2
  all_goals subst e1
  all_goals subst e2
  · refine ⟨rfl, ?_, ?_⟩ <;> simp
  · refine ⟨?_, ?_, ?_⟩
    · simp only [gradCell_pathStep]
    · exact advance_bound _ _ _ _ hp0 hp1 (hH _ _).1 (hyp_pos hyp hH _ _ h5) hdx
    · exact advance_bound _ _ _ _ hp0 hp1 (hH _ _).2 (hyp_pos hyp hH _ _ h5) hdy

/-- The invariant along the whole loop, including preservation of the
planner's `pathStep` through the `gradCell` side effects. -/
theorem calcPathIterN_inv (hyp : ℚ → ℚ → ℚ) (s : NavState) (st : ℤ × ℤ)
    (hH : ∀ a b, |a| ≤ hyp a b ∧ |b| ≤ hyp a b)
    (hp0 : 0 ≤ s.pathStep) (hp1 : s.pathStep ≤ 1) :
    ∀ k (s' : NavState) (ps' : PathState),
      calcPathIterN hyp s st k = .next s' ps' →
      s'.pathStep = s.pathStep ∧ |ps'.dx| ≤ 1 ∧ |ps'.dy| ≤ 1 := by
  intro k
  induction k with
  | zero =>
    intro s' ps' h
    simp only [calcPathIterN] at h
    injection h with e1 e2
    subst e1; subst e2
    exact ⟨rfl, by simp [initPathState], by simp [initPathState]⟩
  | succ k ih =>
    intro s' ps' h
    simp only [calcPathIterN] at h
    cases hr : calcPathIterN hyp s st k with
    | done px py => rw [hr] at h; simp at h
    | fail => rw [hr] at h; simp at h
    | next s1 ps1 =>
      rw [hr] at h
      obtain ⟨hps, hdx1, hdy1⟩ := ih s1 ps1 hr
      obtain ⟨hps2, hdx2, hdy2⟩ :=
        calcPathIter_bound hyp hH s1 ps1 (by rw [hps]; exact hp0)
          (by rw [hps]; exact hp1) hdx1 hdy1 s' ps' h
      exact ⟨by rw [hps2, hps], hdx2, hdy2⟩

/-- C9: throughout `calcPath`, with `0 ≤ pathStep ≤ 1` (the only value the
repository ever assigns is the default `0.5`), the sub-cell offsets satisfy
`dx, dy ∈ [-1, 1]` at the start of every loop iteration: they start at 0, the
fallback resets them to 0, and the gradient branch adds a step of Euclidean
norm `pathStep` and carries any overflowing component back into range. -/
theorem navfn_c9 (hyp : ℚ → ℚ → ℚ) (s : NavState) (st : ℤ × ℤ)
    (hH : ∀ a b, |a| ≤ hyp a b ∧ |b| ≤ hyp a b)
    (hp0 : 0 ≤ s.pathStep) (hp1 : s.pathStep ≤ 1) (k : ℕ) :
    |stepDx (calcPathIterN hyp s st k)| ≤ 1 ∧
      |stepDy (calcPathIterN hyp s st k)| ≤ 1 := by
  cases hr : calcPathIterN hyp s st k with
  | done px py => constructor <;> simp [stepDx, stepDy]
  | fail => constructor <;> simp [stepDx, stepDy]
  | next s1 ps1 =>
    obtain ⟨_, hdx, hdy⟩ := calcPathIterN_inv hyp s st hH hp0 hp1 k s1 ps1 hr
    exact ⟨by simpa [stepDx] using hdx, by simpa [stepDy] using hdy⟩

/-- Witness for C9 at the concrete state `c9s` (with `pathStep = 0.5`) after
two iterations, with the taxicab norm as an admissible stand-in for `hypot`. -/
theorem navfn_c9_witness :
    |stepDx (calcPathIterN (fun a b => |a| + |b|) c9s (2, 2) 2)| ≤ 1 ∧
      |stepDy (calcPathIterN (fun a b => |a| + |b|) c9s (2, 2) 2)| ≤ 1 :=
  navfn_c9 (fun a b => |a| + |b|) c9s (2, 2)
    (fun a b => ⟨le_add_of_nonneg_right (abs_nonneg b),
      le_add_of_nonneg_left (abs_nonneg a)⟩)
    (by norm_num [c9s, mkState]) (by norm_num [c9s, mkState]) 2

end NavFnModel
